import Mathlib

/-!
Formal model of the BME280 publisher (src/bme280_publisher/bme280_publisher.py).

Sensor values (Python floats) are modelled as rationals.  The outbound
message queue (a `deque(maxlen=MAX_QUEUE_SIZE)` of dicts) is modelled as a
list of `QMsg` with oldest-first eviction.  The MQTT client's publish call
is modelled as a boolean-valued function (`true` = MQTT_ERR_SUCCESS), and
the `mqtt_connected` flag consulted before each message of a drain is
modelled as a boolean-valued function of the attempt index.
-/

/-- A queued MQTT message (the dicts built at lines 797-818 and 892-897 of
bme280_publisher.py: topic, payload, qos, retain). -/
structure QMsg where
  topic : String
  payload : String
  qos : Nat
  retain : Bool
deriving DecidableEq, Repr

/-- Model of `add_to_queue` (lines 582-592): append to the deque; a
`deque(maxlen=maxSize)` evicts from the left when full. -/
def add_to_queue (maxSize : Nat) (q : List QMsg) (m : QMsg) : List QMsg :=
  let q2 := q ++ [m]
  q2.drop (q2.length - maxSize)

/-- The `for msg in messages_to_send` loop of `flush_unsent_messages`
(lines 613-623): before each message the `mqtt_connected` flag is read
(argument `connected`, indexed by attempt position); on a disconnect or a
failed publish the current message is pushed back via `add_to_queue` and
the loop exits by `break`, discarding the remaining messages. -/
def flushLoop (maxSize : Nat) (connected : Nat → Bool) (publish : QMsg → Bool) :
    List QMsg → Nat → List QMsg → List QMsg
  | [], _, q => q
  | m :: rest, i, q =>
    if connected i = false then add_to_queue maxSize q m
    else if publish m = false then add_to_queue maxSize q m
    else flushLoop maxSize connected publish rest (i + 1) q

/-- Model of `flush_unsent_messages` (lines 595-626): if the queue is
nonempty, copy it to a local list, clear it, and run the send loop starting
from an empty queue. -/
def flush_unsent_messages (maxSize : Nat) (connected : Nat → Bool)
    (publish : QMsg → Bool) (q : List QMsg) : List QMsg :=
  if q.isEmpty then q else flushLoop maxSize connected publish q 0 []

/-- The `for msg in messages_to_publish` loop of the main loop's Publishing
section (lines 829-840): publish each message, and on a non-success result
code add it to the queue and set `publish_failures`. -/
def publishMessages (maxSize : Nat) (publish : QMsg → Bool) :
    List QMsg → List QMsg → Bool → List QMsg × Bool
  | [], q, failures => (q, failures)
  | m :: rest, q, failures =>
    if publish m then publishMessages maxSize publish rest q failures
    else publishMessages maxSize publish rest (add_to_queue maxSize q m) true

/-- The recovery publish (lines 899-903): when `mqtt_connected` the message
is published but the result code is not inspected; when disconnected the
message is queued via `add_to_queue`. -/
def recoveryPublish (maxSize : Nat) (connected : Bool) (publish : QMsg → Bool)
    (msg : QMsg) (q : List QMsg) : List QMsg :=
  if connected then
    let _ := publish msg
    q
  else add_to_queue maxSize q msg

def m1C1 : QMsg := ⟨"senzory/loc/readings", "payload-1", 1, false⟩
def m2C1 : QMsg := ⟨"senzory/bme280", "payload-2", 1, false⟩
def m3C1 : QMsg := ⟨"senzory/loc/readings", "payload-3", 1, false⟩

/-- The publish function of the C1 failing input: succeeds on every message
except the second one. -/
def pubC1 : QMsg → Bool := fun m => decide (m ≠ m2C1)

/-- C1: evaluation of `flush_unsent_messages` at the failing input.  With
queue [m1, m2, m3], the broker connected throughout, publish succeeding on
m1 and failing on m2, the source re-queues only m2 and discards m3 (the
`break` at line 623 drops the remainder of the drained local copy), so the
resulting queue is [m2], not [m2, m3] as the claim states. -/
theorem C1_flush_drops_rest :
    flush_unsent_messages 1000 (fun _ => true) pubC1 [m1C1, m2C1, m3C1] = [m2C1] ∧
    flush_unsent_messages 1000 (fun _ => true) pubC1 [m1C1, m2C1, m3C1] ≠ [m2C1, m3C1] := by
  constructor
  · rfl
  · decide

/-- C2 (amended): in the main publish cycle every message whose publish
attempt fails is added to the outbound queue (the final queue is the fold
of `add_to_queue` over exactly the failing messages, and the failure flag
records whether any attempt failed); the recovery message, by contrast, is
queued only when the broker is disconnected — when connected its publish
result code is ignored, so the queue is left unchanged even if the publish
fails. -/
theorem C2_publish_queueing :
    (∀ (maxSize : Nat) (publish : QMsg → Bool) (msgs q : List QMsg) (b : Bool),
      publishMessages maxSize publish msgs q b =
        ((msgs.filter (fun m => !publish m)).foldl (add_to_queue maxSize) q,
          b || msgs.any (fun m => !publish m))) ∧
    (∀ (maxSize : Nat) (publish : QMsg → Bool) (msg : QMsg) (q : List QMsg),
      recoveryPublish maxSize false publish msg q = add_to_queue maxSize q msg) ∧
    (∀ (maxSize : Nat) (publish : QMsg → Bool) (msg : QMsg) (q : List QMsg),
      recoveryPublish maxSize true publish msg q = q) := by
  refine ⟨?_, fun _ _ _ _ => rfl, fun _ _ _ _ => rfl⟩
  intro maxSize publish msgs
  induction msgs with
  | nil => intro q b; simp [publishMessages]
  | cons m rest ih =>
    intro q b
    by_cases hm : publish m
    · simp [publishMessages, hm, ih]
    · simp only [Bool.not_eq_true] at hm
      simp [publishMessages, hm, ih]

def rmC2 : QMsg := ⟨"senzory/loc/readings", "recovery-payload", 1, false⟩

/-- C2 counterexample: a recovery message whose publish attempt fails (the
publish function returns a non-success code on every message) while the
broker is connected is not added to the outbound queue — the queue stays
empty and the message is dropped, contradicting the claim that no message
whose publish fails is dropped without being queued. -/
theorem C2_recovery_drop :
    recoveryPublish 1000 true (fun _ => false) rmC2 [] = [] ∧
    rmC2 ∉ recoveryPublish 1000 true (fun _ => false) rmC2 [] := by
  constructor
  · rfl
  · intro h
    simp [recoveryPublish] at h

/-- Configured validation ranges (the `data` section of sensor_config.ini,
loaded at lines 239-250 into TEMP_RANGE, HUMIDITY_RANGE, PRESSURE_RANGE). -/
structure DataRanges where
  temp_min : ℚ
  temp_max : ℚ
  humidity_min : ℚ
  humidity_max : ℚ
  pressure_min : ℚ
  pressure_max : ℚ
deriving DecidableEq, Repr

/-- The configuration values consulted by `get_accurate_readings`:
the validation ranges, the optional `sensor.num_samples` key (line 488,
`config.getint` with the function argument as fallback) and the
`sensor.smoothing_factor` key (line 545, `config.getfloat` with fallback 0). -/
structure SensorConfig where
  ranges : DataRanges
  num_samples : Option Int
  smoothing_factor : ℚ
deriving DecidableEq

/-- The range validation of one raw (temperature, humidity, pressure)
triple (lines 505-507). -/
def validTriple (r : DataRanges) (x : ℚ × ℚ × ℚ) : Bool :=
  (decide (r.temp_min ≤ x.1) && decide (x.1 ≤ r.temp_max))
  && (decide (r.humidity_min ≤ x.2.1) && decide (x.2.1 ≤ r.humidity_max))
  && (decide (r.pressure_min ≤ x.2.2) && decide (x.2.2 ≤ r.pressure_max))

/-- The effective number of read attempts: the function argument is first
clamped by `max(1, num_samples)` (line 485) and then replaced by the
configured value when the `sensor.num_samples` key exists (line 488). -/
def effectiveN (cfg : SensorConfig) (num_samples : Int) : Nat :=
  (cfg.num_samples.getD (max 1 num_samples)).toNat

/-- The raw triples obtained by the `for i in range(num_samples)` loop
(lines 498-521): one read attempt per index; an attempt that raises
(modelled as `none`) contributes nothing. -/
def rawSamples (reads : Nat → Option (ℚ × ℚ × ℚ)) (n : Nat) : List (ℚ × ℚ × ℚ) :=
  (List.range n).filterMap reads

/-- The triples that pass range validation and are appended to the three
sample lists (lines 505-512). -/
def validSamples (r : DataRanges) (reads : Nat → Option (ℚ × ℚ × ℚ)) (n : Nat) :
    List (ℚ × ℚ × ℚ) :=
  (rawSamples reads n).filter (validTriple r)

/-- Python `min` over a nonempty list (junk value 0 on the empty list,
where the source never calls it). -/
def listMin : List ℚ → ℚ
  | [] => 0
  | x :: t => t.foldl min x

/-- Python `max` over a nonempty list (junk value 0 on the empty list). -/
def listMax : List ℚ → ℚ
  | [] => 0
  | x :: t => t.foldl max x

/-- The outlier removal of one field list (lines 531-536):
`xs.remove(min(xs))` then `xs.remove(max(xs))`, where the second `max` is
evaluated on the already-shortened list. -/
def removeOutliers (xs : List ℚ) : List ℚ :=
  let xs1 := xs.erase (listMin xs)
  xs1.erase (listMax xs1)

/-- `sum(xs) / len(xs)` (lines 540-542). -/
def listAvg (xs : List ℚ) : ℚ := xs.sum / xs.length

/-- The per-field sample lists after the conditional outlier removal
(lines 529-537): applied when `discard_outliers and len(temps) > 3`. -/
def outlierStep (discard : Bool) (tl : List ℚ × List ℚ × List ℚ) :
    List ℚ × List ℚ × List ℚ :=
  if discard = true ∧ 3 < tl.1.length then
    (removeOutliers tl.1, removeOutliers tl.2.1, removeOutliers tl.2.2)
  else tl

/-- The three per-field lists built by appending each valid triple's
components (lines 509-511). -/
def fieldLists (r : DataRanges) (reads : Nat → Option (ℚ × ℚ × ℚ)) (n : Nat) :
    List ℚ × List ℚ × List ℚ :=
  let s := validSamples r reads n
  (s.map (fun x => x.1), s.map (fun x => x.2.1), s.map (fun x => x.2.2))

/-- The computed per-field averages after validation and outlier removal
(lines 540-542). -/
def computedAverages (cfg : SensorConfig) (reads : Nat → Option (ℚ × ℚ × ℚ))
    (num_samples : Int) (discard : Bool) : ℚ × ℚ × ℚ :=
  let fl := outlierStep discard (fieldLists cfg.ranges reads (effectiveN cfg num_samples))
  (listAvg fl.1, listAvg fl.2.1, listAvg fl.2.2)

/-- The smoothing state stored in `get_accurate_readings.last_good_readings`
(lines 571-576): the unrounded per-field values. -/
structure LastGoodReadings where
  temperature : ℚ
  humidity : ℚ
  pressure : ℚ
deriving DecidableEq, Repr

/-- The exponential smoothing step (lines 544-555): applied only when
`0 < smoothing_factor < 1` and a previous stored reading exists. -/
def smoothStep (a : ℚ) (last : Option LastGoodReadings) (v : ℚ × ℚ × ℚ) :
    ℚ × ℚ × ℚ :=
  if 0 < a ∧ a < 1 then
    match last with
    | some lg =>
        (a * v.1 + (1 - a) * lg.temperature,
         a * v.2.1 + (1 - a) * lg.humidity,
         a * v.2.2 + (1 - a) * lg.pressure)
    | none => v
  else v

/-- Python `round(x, 2)` modelled as rounding to the nearest multiple of
1/100. -/
def round2 (q : ℚ) : ℚ := (round (100 * q) : ℤ) / 100

/-- The result dictionary of `get_accurate_readings` (lines 557-569): the
rounded per-field values, the post-outlier-removal field lists (the Python
`raw_readings` entry holds the mutated lists), and the two sample counts. -/
structure GARResult where
  temperature : ℚ
  humidity : ℚ
  pressure : ℚ
  raw_temps : List ℚ
  raw_hums : List ℚ
  raw_press : List ℚ
  successful_readings : Nat
  total_readings : Nat
deriving DecidableEq, Repr

/-- Model of `get_accurate_readings` (lines 468-579).  The sensor handle is
`none` for a `None` handle, otherwise a function giving each read attempt's
outcome.  Returns the optional result together with the value of the
process-wide smoothing state `get_accurate_readings.last_good_readings`
after the call. -/
def get_accurate_readings (cfg : SensorConfig)
    (sensor : Option (Nat → Option (ℚ × ℚ × ℚ)))
    (num_samples : Int) (discard_outliers : Bool)
    (last : Option LastGoodReadings) :
    Option GARResult × Option LastGoodReadings :=
  match sensor with
  | none => (none, last)
  | some reads =>
    let n := effectiveN cfg num_samples
    let fl := fieldLists cfg.ranges reads n
    if fl.1 = [] ∨ fl.2.1 = [] ∨ fl.2.2 = [] then (none, last)
    else
      let fl2 := outlierStep discard_outliers fl
      let avgs := (listAvg fl2.1, listAvg fl2.2.1, listAvg fl2.2.2)
      let b := smoothStep cfg.smoothing_factor last avgs
      (some { temperature := round2 b.1
              humidity := round2 b.2.1
              pressure := round2 b.2.2
              raw_temps := fl2.1
              raw_hums := fl2.2.1
              raw_press := fl2.2.2
              successful_readings := (validSamples cfg.ranges reads n).length
              total_readings := n },
       some ⟨b.1, b.2.1, b.2.2⟩)

lemma foldl_min_le_init (t : List ℚ) : ∀ a : ℚ, t.foldl min a ≤ a := by
  induction t with
  | nil => intro a; simp
  | cons y t ih =>
    intro a
    calc (y :: t).foldl min a = t.foldl min (min a y) := rfl
    _ ≤ min a y := ih _
    _ ≤ a := min_le_left _ _

lemma foldl_min_le_mem (t : List ℚ) : ∀ a b : ℚ, b ∈ t → t.foldl min a ≤ b := by
  induction t with
  | nil => intro a b hb; simp at hb
  | cons y t ih =>
    intro a b hb
    rcases List.mem_cons.mp hb with rfl | hb
    · calc (b :: t).foldl min a = t.foldl min (min a b) := rfl
      _ ≤ min a b := foldl_min_le_init t _
      _ ≤ b := min_le_right _ _
    · exact ih _ _ hb

lemma foldl_min_eq_or_mem (t : List ℚ) : ∀ a : ℚ, t.foldl min a = a ∨ t.foldl min a ∈ t := by
  induction t with
  | nil => intro a; left; rfl
  | cons y t ih =>
    intro a
    rcases ih (min a y) with h | h
    · rcases min_choice a y with h2 | h2
      · left
        show t.foldl min (min a y) = a
        rw [h, h2]
      · right
        show t.foldl min (min a y) ∈ y :: t
        rw [h, h2]
        exact List.mem_cons_self _ _
    · right
      exact List.mem_cons_of_mem _ h

lemma listMin_mem : ∀ xs : List ℚ, xs ≠ [] → listMin xs ∈ xs := by
  intro xs h
  match xs with
  | [] => exact absurd rfl h
  | x :: t =>
    rcases foldl_min_eq_or_mem t x with h1 | h1
    · show t.foldl min x ∈ x :: t
      rw [h1]
      exact List.mem_cons_self _ _
    · exact List.mem_cons_of_mem _ h1

lemma listMin_le : ∀ (xs : List ℚ) (b : ℚ), b ∈ xs → listMin xs ≤ b := by
  intro xs b hb
  match xs with
  | [] => simp at hb
  | x :: t =>
    show t.foldl min x ≤ b
    rcases List.mem_cons.mp hb with rfl | hb
    · exact foldl_min_le_init t b
    · exact foldl_min_le_mem t x b hb

lemma foldl_max_init_le (t : List ℚ) : ∀ a : ℚ, a ≤ t.foldl max a := by
  induction t with
  | nil => intro a; simp
  | cons y t ih =>
    intro a
    calc a ≤ max a y := le_max_left _ _
    _ ≤ t.foldl max (max a y) := ih _
    _ = (y :: t).foldl max a := rfl

lemma foldl_max_mem_le (t : List ℚ) : ∀ a b : ℚ, b ∈ t → b ≤ t.foldl max a := by
  induction t with
  | nil => intro a b hb; simp at hb
  | cons y t ih =>
    intro a b hb
    rcases List.mem_cons.mp hb with rfl | hb
    · calc b ≤ max a b := le_max_right _ _
      _ ≤ t.foldl max (max a b) := foldl_max_init_le t _
      _ = (b :: t).foldl max a := rfl
    · exact ih _ _ hb

lemma foldl_max_eq_or_mem (t : List ℚ) : ∀ a : ℚ, t.foldl max a = a ∨ t.foldl max a ∈ t := by
  induction t with
  | nil => intro a; left; rfl
  | cons y t ih =>
    intro a
    rcases ih (max a y) with h | h
    · rcases max_choice a y with h2 | h2
      · left
        show t.foldl max (max a y) = a
        rw [h, h2]
      · right
        show t.foldl max (max a y) ∈ y :: t
        rw [h, h2]
        exact List.mem_cons_self _ _
    · right
      exact List.mem_cons_of_mem _ h

lemma listMax_mem : ∀ xs : List ℚ, xs ≠ [] → listMax xs ∈ xs := by
  intro xs h
  match xs with
  | [] => exact absurd rfl h
  | x :: t =>
    rcases foldl_max_eq_or_mem t x with h1 | h1
    · show t.foldl max x ∈ x :: t
      rw [h1]
      exact List.mem_cons_self _ _
    · exact List.mem_cons_of_mem _ h1

lemma le_listMax : ∀ (xs : List ℚ) (b : ℚ), b ∈ xs → b ≤ listMax xs := by
  intro xs b hb
  match xs with
  | [] => simp at hb
  | x :: t =>
    show b ≤ t.foldl max x
    rcases List.mem_cons.mp hb with rfl | hb
    · exact foldl_max_init_le t b
    · exact foldl_max_mem_le t x b hb

lemma listMax_erase_listMin (xs : List ℚ) (h : 2 ≤ xs.length) :
    listMax (xs.erase (listMin xs)) = listMax xs := by
  have hne : xs ≠ [] := by
    intro h0
    rw [h0] at h
    simp at h
  have hmin := listMin_mem xs hne
  have hlen1 : (xs.erase (listMin xs)).length = xs.length - 1 :=
    List.length_erase_of_mem hmin
  have hne1 : xs.erase (listMin xs) ≠ [] := by
    intro h0
    rw [h0] at hlen1
    simp at hlen1
    omega
  have hmem1 : listMax (xs.erase (listMin xs)) ∈ xs :=
    List.erase_subset _ _ (listMax_mem _ hne1)
  have hle : listMax (xs.erase (listMin xs)) ≤ listMax xs := le_listMax xs _ hmem1
  by_cases hmm : listMax xs = listMin xs
  · have h2 : listMin xs ≤ listMax (xs.erase (listMin xs)) := listMin_le xs _ hmem1
    rw [hmm]
    exact le_antisymm (hmm ▸ hle) h2
  · have : listMax xs ∈ xs.erase (listMin xs) :=
      (List.mem_erase_of_ne hmm).mpr (listMax_mem xs hne)
    exact le_antisymm hle (le_listMax _ _ this)

lemma removeOutliers_perm (xs : List ℚ) (h : 2 ≤ xs.length) :
    xs.Perm (listMin xs :: listMax xs :: removeOutliers xs) := by
  have hne : xs ≠ [] := by
    intro h0
    rw [h0] at h
    simp at h
  have hmin := listMin_mem xs hne
  have hlen1 : (xs.erase (listMin xs)).length = xs.length - 1 :=
    List.length_erase_of_mem hmin
  have hne1 : xs.erase (listMin xs) ≠ [] := by
    intro h0
    rw [h0] at hlen1
    simp at hlen1
    omega
  have hmax1 := listMax_mem (xs.erase (listMin xs)) hne1
  have p1 : xs.Perm (listMin xs :: xs.erase (listMin xs)) := List.perm_cons_erase hmin
  have p2 := List.perm_cons_erase hmax1
  have e := listMax_erase_listMin xs h
  refine p1.trans (List.Perm.cons _ ?_)
  rw [← e]
  exact p2

lemma removeOutliers_subset (xs : List ℚ) : removeOutliers xs ⊆ xs := by
  intro a ha
  simp only [removeOutliers] at ha
  exact List.erase_subset _ _ (List.erase_subset _ _ ha)

lemma gar_none_of_empty (cfg : SensorConfig) (reads : Nat → Option (ℚ × ℚ × ℚ))
    (ns : Int) (disc : Bool) (last : Option LastGoodReadings)
    (hz : validSamples cfg.ranges reads (effectiveN cfg ns) = []) :
    get_accurate_readings cfg (some reads) ns disc last = (none, last) := by
  simp only [get_accurate_readings, fieldLists, hz]
  simp

lemma gar_success (cfg : SensorConfig) (reads : Nat → Option (ℚ × ℚ × ℚ))
    (ns : Int) (disc : Bool) (last : Option LastGoodReadings)
    (hnz : validSamples cfg.ranges reads (effectiveN cfg ns) ≠ []) :
    get_accurate_readings cfg (some reads) ns disc last =
      (some { temperature :=
                round2 (smoothStep cfg.smoothing_factor last
                  (computedAverages cfg reads ns disc)).1
              humidity :=
                round2 (smoothStep cfg.smoothing_factor last
                  (computedAverages cfg reads ns disc)).2.1
              pressure :=
                round2 (smoothStep cfg.smoothing_factor last
                  (computedAverages cfg reads ns disc)).2.2
              raw_temps := (outlierStep disc (fieldLists cfg.ranges reads (effectiveN cfg ns))).1
              raw_hums := (outlierStep disc (fieldLists cfg.ranges reads (effectiveN cfg ns))).2.1
              raw_press := (outlierStep disc (fieldLists cfg.ranges reads (effectiveN cfg ns))).2.2
              successful_readings := (validSamples cfg.ranges reads (effectiveN cfg ns)).length
              total_readings := effectiveN cfg ns },
       some { temperature :=
                (smoothStep cfg.smoothing_factor last
                  (computedAverages cfg reads ns disc)).1
              humidity :=
                (smoothStep cfg.smoothing_factor last
                  (computedAverages cfg reads ns disc)).2.1
              pressure :=
                (smoothStep cfg.smoothing_factor last
                  (computedAverages cfg reads ns disc)).2.2 }) := by
  have hcond : ¬ ((fieldLists cfg.ranges reads (effectiveN cfg ns)).1 = [] ∨
      (fieldLists cfg.ranges reads (effectiveN cfg ns)).2.1 = [] ∨
      (fieldLists cfg.ranges reads (effectiveN cfg ns)).2.2 = []) := by
    simp only [fieldLists, List.map_eq_nil_iff]
    push_neg
    exact ⟨hnz, hnz, hnz⟩
  simp only [get_accurate_readings]
  rw [if_neg hcond]
  rfl

/-- C4: in an aggregation call with outlier discarding enabled, more than 3
valid samples, and no smoothing in effect, each field list is pruned of
exactly one occurrence of its minimum and one of its maximum — each list on
its own ordering (the three removed values need not come from the same
triples) — and the published value of each field is the rounded average of
the remaining values of that field. -/
theorem C4_outlier_removal (cfg : SensorConfig) (reads : Nat → Option (ℚ × ℚ × ℚ))
    (ns : Int) (last : Option LastGoodReadings) (r : GARResult)
    (st2 : Option LastGoodReadings) (temps hums press : List ℚ)
    (htemps : temps = (fieldLists cfg.ranges reads (effectiveN cfg ns)).1)
    (hhums : hums = (fieldLists cfg.ranges reads (effectiveN cfg ns)).2.1)
    (hpress : press = (fieldLists cfg.ranges reads (effectiveN cfg ns)).2.2)
    (hres : get_accurate_readings cfg (some reads) ns true last = (some r, st2))
    (hlen : 3 < (validSamples cfg.ranges reads (effectiveN cfg ns)).length)
    (ha : ¬ (0 < cfg.smoothing_factor ∧ cfg.smoothing_factor < 1)) :
    temps.Perm (listMin temps :: listMax temps :: removeOutliers temps) ∧
    hums.Perm (listMin hums :: listMax hums :: removeOutliers hums) ∧
    press.Perm (listMin press :: listMax press :: removeOutliers press) ∧
    r.temperature = round2 (listAvg (removeOutliers temps)) ∧
    r.humidity = round2 (listAvg (removeOutliers hums)) ∧
    r.pressure = round2 (listAvg (removeOutliers press)) := by
  have hnz : validSamples cfg.ranges reads (effectiveN cfg ns) ≠ [] := by
    intro h0
    rw [h0] at hlen
    simp at hlen
  have hlt : temps.length = (validSamples cfg.ranges reads (effectiveN cfg ns)).length := by
    rw [htemps]; simp [fieldLists]
  have hlh : hums.length = (validSamples cfg.ranges reads (effectiveN cfg ns)).length := by
    rw [hhums]; simp [fieldLists]
  have hlp : press.length = (validSamples cfg.ranges reads (effectiveN cfg ns)).length := by
    rw [hpress]; simp [fieldLists]
  have hflen : 3 < (fieldLists cfg.ranges reads (effectiveN cfg ns)).1.length := by
    rw [← htemps, hlt]
    exact hlen
  have hout : outlierStep true (fieldLists cfg.ranges reads (effectiveN cfg ns)) =
      (removeOutliers temps, removeOutliers hums, removeOutliers press) := by
    rw [outlierStep, if_pos ⟨rfl, hflen⟩, ← htemps, ← hhums, ← hpress]
  rw [gar_success cfg reads ns true last hnz] at hres
  have hr : r = { temperature :=
                    round2 (smoothStep cfg.smoothing_factor last
                      (computedAverages cfg reads ns true)).1
                  humidity :=
                    round2 (smoothStep cfg.smoothing_factor last
                      (computedAverages cfg reads ns true)).2.1
                  pressure :=
                    round2 (smoothStep cfg.smoothing_factor last
                      (computedAverages cfg reads ns true)).2.2
                  raw_temps := (outlierStep true (fieldLists cfg.ranges reads (effectiveN cfg ns))).1
                  raw_hums := (outlierStep true (fieldLists cfg.ranges reads (effectiveN cfg ns))).2.1
                  raw_press := (outlierStep true (fieldLists cfg.ranges reads (effectiveN cfg ns))).2.2
                  successful_readings := (validSamples cfg.ranges reads (effectiveN cfg ns)).length
                  total_readings := effectiveN cfg ns } := by
    have := congrArg Prod.fst hres
    simpa using this.symm
  have hsm : smoothStep cfg.smoothing_factor last (computedAverages cfg reads ns true) =
      computedAverages cfg reads ns true := by
    rw [smoothStep.eq_def, if_neg ha]
  have hca : computedAverages cfg reads ns true =
      (listAvg (removeOutliers temps), listAvg (removeOutliers hums),
        listAvg (removeOutliers press)) := by
    rw [computedAverages]
    rw [hout]
  refine ⟨?_, ?_, ?_, ?_, ?_, ?_⟩
  · exact removeOutliers_perm temps (by omega)
  · exact removeOutliers_perm hums (by omega)
  · exact removeOutliers_perm press (by omega)
  · rw [hr, hsm, hca]
  · rw [hr, hsm, hca]
  · rw [hr, hsm, hca]

def cfgC4 : SensorConfig := ⟨⟨-40, 200, 0, 100, 300, 1100⟩, none, 0⟩

/-- Five read attempts with temperatures 20, 21, 22, 23, 100 and constant
humidity and pressure. -/
def readsC4 : Nat → Option (ℚ × ℚ × ℚ) := fun i =>
  if i = 0 then some (20, 50, 1000)
  else if i = 1 then some (21, 50, 1000)
  else if i = 2 then some (22, 50, 1000)
  else if i = 3 then some (23, 50, 1000)
  else if i = 4 then some (100, 50, 1000)
  else none

def rC4 : GARResult :=
  ⟨22, 50, 1000, [21, 22, 23], [50, 50, 50], [1000, 1000, 1000], 5, 5⟩

/-- C4 witness: the spec example.  Temperatures [20, 21, 22, 23, 100] with
outlier discarding on: the min 20 and max 100 are removed and the published
temperature is the average 22 of the remaining [21, 22, 23]. -/
lemma garC4_eval :
    get_accurate_readings cfgC4 (some readsC4) 5 true none =
      (some rC4, some ⟨22, 50, 1000⟩) := by
  rw [gar_success cfgC4 readsC4 5 true none (by decide)]
  have hout : outlierStep true (fieldLists cfgC4.ranges readsC4 (effectiveN cfgC4 5)) =
      ([21, 22, 23], [50, 50, 50], [1000, 1000, 1000]) := by decide
  have hca : computedAverages cfgC4 readsC4 5 true = (22, 50, 1000) := by
    simp only [computedAverages, hout]
    norm_num [listAvg, List.sum_cons, List.sum_nil]
  have hsm : smoothStep cfgC4.smoothing_factor none
      (computedAverages cfgC4 readsC4 5 true) = (22, 50, 1000) := by
    rw [hca, smoothStep.eq_def]
    norm_num [cfgC4]
  have hv : (validSamples cfgC4.ranges readsC4 (effectiveN cfgC4 5)).length = 5 := by decide
  have hn : effectiveN cfgC4 5 = 5 := by decide
  simp only [hsm, hout, hv, hn, rC4]
  norm_num [round2]
  decide

theorem C4_outlier_removal_w :
    ([20, 21, 22, 23, 100] : List ℚ).Perm
      (listMin [20, 21, 22, 23, 100] :: listMax [20, 21, 22, 23, 100] ::
        removeOutliers [20, 21, 22, 23, 100]) ∧
    rC4.temperature = round2 (listAvg (removeOutliers [20, 21, 22, 23, 100])) ∧
    rC4.temperature = 22 := by
  have h := C4_outlier_removal cfgC4 readsC4 5 none rC4 (some ⟨22, 50, 1000⟩)
      [20, 21, 22, 23, 100] [50, 50, 50, 50, 50] [1000, 1000, 1000, 1000, 1000]
      (by decide) (by decide) (by decide) garC4_eval (by decide) (by decide)
  exact ⟨h.1, h.2.2.2.1, by decide⟩

/-- C5: in an aggregation call with a previous stored reading, if the
smoothing factor lies strictly between 0 and 1 then each published field is
the rounding of the blend factor*computed + (1 - factor)*previous and the
blended (unrounded) values become the new stored state; if the factor is 0
(the fallback for an unset key) no smoothing is applied: the published
fields are the rounded computed averages and the stored state becomes the
computed averages themselves. -/
theorem C5_smoothing (cfg : SensorConfig) (reads : Nat → Option (ℚ × ℚ × ℚ))
    (ns : Int) (disc : Bool) (last : Option LastGoodReadings)
    (prev : LastGoodReadings) (r : GARResult) (st2 : Option LastGoodReadings)
    (hprev : last = some prev)
    (hres : get_accurate_readings cfg (some reads) ns disc last = (some r, st2)) :
    (0 < cfg.smoothing_factor → cfg.smoothing_factor < 1 →
      (r.temperature = round2 (cfg.smoothing_factor * (computedAverages cfg reads ns disc).1 +
          (1 - cfg.smoothing_factor) * prev.temperature) ∧
       r.humidity = round2 (cfg.smoothing_factor * (computedAverages cfg reads ns disc).2.1 +
          (1 - cfg.smoothing_factor) * prev.humidity) ∧
       r.pressure = round2 (cfg.smoothing_factor * (computedAverages cfg reads ns disc).2.2 +
          (1 - cfg.smoothing_factor) * prev.pressure) ∧
       st2 = some ⟨cfg.smoothing_factor * (computedAverages cfg reads ns disc).1 +
            (1 - cfg.smoothing_factor) * prev.temperature,
          cfg.smoothing_factor * (computedAverages cfg reads ns disc).2.1 +
            (1 - cfg.smoothing_factor) * prev.humidity,
          cfg.smoothing_factor * (computedAverages cfg reads ns disc).2.2 +
            (1 - cfg.smoothing_factor) * prev.pressure⟩)) ∧
    (cfg.smoothing_factor = 0 →
      (r.temperature = round2 (computedAverages cfg reads ns disc).1 ∧
       r.humidity = round2 (computedAverages cfg reads ns disc).2.1 ∧
       r.pressure = round2 (computedAverages cfg reads ns disc).2.2 ∧
       st2 = some ⟨(computedAverages cfg reads ns disc).1,
          (computedAverages cfg reads ns disc).2.1,
          (computedAverages cfg reads ns disc).2.2⟩)) := by
  have hnz : validSamples cfg.ranges reads (effectiveN cfg ns) ≠ [] := by
    intro h0
    rw [gar_none_of_empty cfg reads ns disc last h0] at hres
    exact absurd (congrArg Prod.fst hres) (by simp)
  rw [gar_success cfg reads ns disc last hnz] at hres
  have hr := congrArg Prod.fst hres
  have hst := congrArg Prod.snd hres
  simp only at hr hst
  constructor
  · intro h0 h1
    have hsm : smoothStep cfg.smoothing_factor last (computedAverages cfg reads ns disc) =
        (cfg.smoothing_factor * (computedAverages cfg reads ns disc).1 +
            (1 - cfg.smoothing_factor) * prev.temperature,
         cfg.smoothing_factor * (computedAverages cfg reads ns disc).2.1 +
            (1 - cfg.smoothing_factor) * prev.humidity,
         cfg.smoothing_factor * (computedAverages cfg reads ns disc).2.2 +
            (1 - cfg.smoothing_factor) * prev.pressure) := by
      rw [smoothStep.eq_def, if_pos ⟨h0, h1⟩, hprev]
    rw [hsm] at hr hst
    obtain rfl := Option.some_inj.mp hr
    subst hst
    exact ⟨rfl, rfl, rfl, rfl⟩
  · intro h0
    have hsm : smoothStep cfg.smoothing_factor last (computedAverages cfg reads ns disc) =
        computedAverages cfg reads ns disc := by
      rw [smoothStep.eq_def, if_neg]
      rw [h0]
      simp
    rw [hsm] at hr hst
    obtain rfl := Option.some_inj.mp hr
    subst hst
    exact ⟨rfl, rfl, rfl, rfl⟩

def cfgC5 : SensorConfig := ⟨⟨-40, 85, 0, 100, 300, 1100⟩, none, 1/2⟩

/-- One read attempt yielding temperature 24. -/
def readsC5 : Nat → Option (ℚ × ℚ × ℚ) := fun i =>
  if i = 0 then some (24, 50, 1000) else none

def rC5 : GARResult := ⟨22, 50, 1000, [24], [50], [1000], 1, 1⟩

lemma garC5_eval :
    get_accurate_readings cfgC5 (some readsC5) 1 true (some ⟨20, 50, 1000⟩) =
      (some rC5, some ⟨22, 50, 1000⟩) := by
  rw [gar_success cfgC5 readsC5 1 true (some ⟨20, 50, 1000⟩) (by decide)]
  have hout : outlierStep true (fieldLists cfgC5.ranges readsC5 (effectiveN cfgC5 1)) =
      ([24], [50], [1000]) := by decide
  have hca : computedAverages cfgC5 readsC5 1 true = (24, 50, 1000) := by
    simp only [computedAverages, hout]
    norm_num [listAvg, List.sum_cons, List.sum_nil]
  have hsm : smoothStep cfgC5.smoothing_factor (some ⟨20, 50, 1000⟩)
      (computedAverages cfgC5 readsC5 1 true) = (22, 50, 1000) := by
    rw [hca, smoothStep.eq_def]
    norm_num [cfgC5]
  have hv : (validSamples cfgC5.ranges readsC5 (effectiveN cfgC5 1)).length = 1 := by decide
  have hn : effectiveN cfgC5 1 = 1 := by decide
  simp only [hsm, hout, hv, hn, rC5]
  norm_num [round2]
  decide

/-- C5 witness: the spec example.  Previous accepted temperature 20,
computed 24, factor one half: the published temperature is 22. -/
theorem C5_smoothing_w :
    rC5.temperature = round2 (cfgC5.smoothing_factor *
        (computedAverages cfgC5 readsC5 1 true).1 +
      (1 - cfgC5.smoothing_factor) * (20 : ℚ)) ∧
    rC5.temperature = 22 := by
  have h := C5_smoothing cfgC5 readsC5 1 true (some ⟨20, 50, 1000⟩) ⟨20, 50, 1000⟩ rC5
      (some ⟨22, 50, 1000⟩) rfl garC5_eval
  have h1 := h.1 (by norm_num [cfgC5]) (by norm_num [cfgC5])
  exact ⟨h1.1, rfl⟩

/-- C6: an aggregation call whose result is none (a `None` sensor handle,
or zero valid samples after all attempts) leaves the stored smoothing state
unchanged, and zero valid samples always produce a none result. -/
theorem C6_none_keeps_state (cfg : SensorConfig)
    (sensor : Option (Nat → Option (ℚ × ℚ × ℚ))) (ns : Int) (disc : Bool)
    (last : Option LastGoodReadings) :
    ((get_accurate_readings cfg sensor ns disc last).1 = none →
      (get_accurate_readings cfg sensor ns disc last).2 = last) ∧
    (∀ reads, sensor = some reads →
      validSamples cfg.ranges reads (effectiveN cfg ns) = [] →
      (get_accurate_readings cfg sensor ns disc last).1 = none) := by
  constructor
  · intro hnone
    match hs : sensor with
    | none => rfl
    | some reads =>
      by_cases hz : validSamples cfg.ranges reads (effectiveN cfg ns) = []
      · rw [gar_none_of_empty cfg reads ns disc last hz]
      · rw [gar_success cfg reads ns disc last hz] at hnone
        simp at hnone
  · intro reads hs hz
    rw [hs, gar_none_of_empty cfg reads ns disc last hz]

def cfgC6 : SensorConfig := ⟨⟨-40, 85, 0, 100, 300, 1100⟩, none, 0⟩

/-- Every read attempt raises (no valid readings at all). -/
def readsC6 : Nat → Option (ℚ × ℚ × ℚ) := fun _ => none

/-- C6 witness: with every read attempt failing, the call returns none and
the stored smoothing state is exactly the incoming one. -/
theorem C6_none_keeps_state_w :
    (get_accurate_readings cfgC6 (some readsC6) 5 true (some ⟨1, 2, 3⟩)).1 = none ∧
    (get_accurate_readings cfgC6 (some readsC6) 5 true (some ⟨1, 2, 3⟩)).2 =
      some ⟨1, 2, 3⟩ := by
  have h := C6_none_keeps_state cfgC6 (some readsC6) 5 true (some ⟨1, 2, 3⟩)
  have h1 := h.2 readsC6 rfl (by decide)
  exact ⟨h1, h.1 h1⟩

lemma filterMap_congr_on (l : List Nat) (f g : Nat → Option (ℚ × ℚ × ℚ))
    (h : ∀ i ∈ l, f i = g i) : l.filterMap f = l.filterMap g := by
  induction l with
  | nil => rfl
  | cons a t ih =>
    rw [List.filterMap_cons, List.filterMap_cons, h a (List.mem_cons_self a t),
      ih (fun i hi => h i (List.mem_cons_of_mem _ hi))]

lemma rawSamples_congr (reads reads2 : Nat → Option (ℚ × ℚ × ℚ)) (n : Nat)
    (h : ∀ i, i < n → reads i = reads2 i) :
    rawSamples reads n = rawSamples reads2 n := by
  unfold rawSamples
  exact filterMap_congr_on _ _ _ (fun i hi => h i (List.mem_range.mp hi))

/-- C7: every aggregation pass validates each raw triple against the
configured per-field ranges: a triple failing any field's range never
enters the valid sample list, a triple passing all three always does (no
attempt among the first n is skipped), the result records exactly the
effective attempt count and the valid-sample count, the emitted temperature
values are drawn from the valid samples only, and the pass consults exactly
the first n read attempts (two read sequences agreeing on attempts below n
give identical results, regardless of how many attempts succeed). -/
theorem C7_validation_attempts (cfg : SensorConfig)
    (reads : Nat → Option (ℚ × ℚ × ℚ)) (ns : Int) (disc : Bool)
    (last : Option LastGoodReadings) :
    (∀ i x, i < effectiveN cfg ns → reads i = some x →
      validTriple cfg.ranges x = false →
      x ∉ validSamples cfg.ranges reads (effectiveN cfg ns)) ∧
    (∀ i x, i < effectiveN cfg ns → reads i = some x →
      validTriple cfg.ranges x = true →
      x ∈ validSamples cfg.ranges reads (effectiveN cfg ns)) ∧
    (∀ r st2, get_accurate_readings cfg (some reads) ns disc last = (some r, st2) →
      r.total_readings = effectiveN cfg ns ∧
      r.successful_readings = (validSamples cfg.ranges reads (effectiveN cfg ns)).length ∧
      r.raw_temps ⊆ (validSamples cfg.ranges reads (effectiveN cfg ns)).map
        (fun x => x.1)) ∧
    (∀ reads2 : Nat → Option (ℚ × ℚ × ℚ),
      (∀ i, i < effectiveN cfg ns → reads i = reads2 i) →
      get_accurate_readings cfg (some reads) ns disc last =
        get_accurate_readings cfg (some reads2) ns disc last) := by
  refine ⟨?_, ?_, ?_, ?_⟩
  · intro i x hi hx hbad hmem
    simp only [validSamples, List.mem_filter] at hmem
    rw [hmem.2] at hbad
    exact absurd hbad (by simp)
  · intro i x hi hx hgood
    simp only [validSamples, rawSamples, List.mem_filter, List.mem_filterMap]
    exact ⟨⟨i, List.mem_range.mpr hi, hx⟩, hgood⟩
  · intro r st2 hres
    by_cases hz : validSamples cfg.ranges reads (effectiveN cfg ns) = []
    · rw [gar_none_of_empty cfg reads ns disc last hz] at hres
      exact absurd (congrArg Prod.fst hres) (by simp)
    · rw [gar_success cfg reads ns disc last hz, Prod.mk.injEq] at hres
      obtain ⟨hr, hst⟩ := hres
      obtain rfl := Option.some_inj.mp hr
      refine ⟨rfl, rfl, ?_⟩
      intro a ha
      have hfl : (fieldLists cfg.ranges reads (effectiveN cfg ns)).1 =
          (validSamples cfg.ranges reads (effectiveN cfg ns)).map (fun x => x.1) := rfl
      simp only at ha
      by_cases hc : disc = true ∧
          3 < (fieldLists cfg.ranges reads (effectiveN cfg ns)).1.length
      · rw [outlierStep, if_pos hc] at ha
        rw [← hfl]
        exact removeOutliers_subset _ ha
      · rw [outlierStep, if_neg hc] at ha
        rw [← hfl]
        exact ha
  · intro reads2 hagree
    have hv : validSamples cfg.ranges reads (effectiveN cfg ns) =
        validSamples cfg.ranges reads2 (effectiveN cfg ns) := by
      unfold validSamples
      rw [rawSamples_congr reads reads2 (effectiveN cfg ns) hagree]
    simp only [get_accurate_readings, fieldLists, hv]

def cfgC7 : SensorConfig := ⟨⟨-40, 85, 0, 100, 300, 1100⟩, none, 0⟩

/-- Three read attempts: one valid triple, one triple with temperature 500
(out of range), one raising attempt. -/
def readsC7 : Nat → Option (ℚ × ℚ × ℚ) := fun i =>
  if i = 0 then some (20, 50, 1000)
  else if i = 1 then some (500, 50, 1000)
  else none

def rC7 : GARResult := ⟨20, 50, 1000, [20], [50], [1000], 1, 3⟩

/-- A read sequence agreeing with `readsC7` on attempts 0, 1, 2 only. -/
def readsC7b : Nat → Option (ℚ × ℚ × ℚ) := fun i =>
  if i ≤ 2 then readsC7 i else some (0, 0, 0)

lemma garC7_eval :
    get_accurate_readings cfgC7 (some readsC7) 3 true none =
      (some rC7, some ⟨20, 50, 1000⟩) := by
  rw [gar_success cfgC7 readsC7 3 true none (by decide)]
  have hout : outlierStep true (fieldLists cfgC7.ranges readsC7 (effectiveN cfgC7 3)) =
      ([20], [50], [1000]) := by decide
  have hca : computedAverages cfgC7 readsC7 3 true = (20, 50, 1000) := by
    simp only [computedAverages, hout]
    norm_num [listAvg, List.sum_cons, List.sum_nil]
  have hsm : smoothStep cfgC7.smoothing_factor none
      (computedAverages cfgC7 readsC7 3 true) = (20, 50, 1000) := by
    rw [hca, smoothStep.eq_def]
    norm_num [cfgC7]
  have hv : (validSamples cfgC7.ranges readsC7 (effectiveN cfgC7 3)).length = 1 := by decide
  have hn : effectiveN cfgC7 3 = 3 := by decide
  simp only [hsm, hout, hv, hn, rC7]
  norm_num [round2]
  decide

/-- C7 witness: the out-of-range triple with temperature 500 is excluded
from the valid samples, the result reports 3 attempts and 1 success, and an
agreeing read sequence below attempt 3 gives the identical call result. -/
theorem C7_validation_attempts_w :
    ((500 : ℚ), (50 : ℚ), (1000 : ℚ)) ∉
      validSamples cfgC7.ranges readsC7 (effectiveN cfgC7 3) ∧
    rC7.total_readings = effectiveN cfgC7 3 ∧
    rC7.successful_readings = 1 ∧
    get_accurate_readings cfgC7 (some readsC7) 3 true none =
      get_accurate_readings cfgC7 (some readsC7b) 3 true none := by
  have h := C7_validation_attempts cfgC7 readsC7 3 true none
  refine ⟨h.1 1 (500, 50, 1000) (by decide) (by decide) (by decide), ?_, ?_, ?_⟩
  · exact (h.2.2.1 rC7 (some ⟨20, 50, 1000⟩) garC7_eval).1
  · have h2 := (h.2.2.1 rC7 (some ⟨20, 50, 1000⟩) garC7_eval).2.1
    rw [h2]
    decide
  · refine h.2.2.2 readsC7b ?_
    intro i hi
    rw [show effectiveN cfgC7 3 = 3 from by decide] at hi
    have h2 : i ≤ 2 := by omega
    simp [readsC7b, h2]

/-- C9: when the configured `sensor.num_samples` value is zero or negative,
the effective attempt count is zero (the `max(1, ...)` clamp applies only to
the function argument, which the configured value then replaces), so the
call performs no read attempts and returns none with the smoothing state
untouched, for every sensor handle. -/
theorem C9_nonpositive_num_samples (cfg : SensorConfig) (v : Int)
    (reads : Nat → Option (ℚ × ℚ × ℚ)) (ns : Int) (disc : Bool)
    (last : Option LastGoodReadings)
    (hv : cfg.num_samples = some v) (hle : v ≤ 0) :
    effectiveN cfg ns = 0 ∧
    rawSamples reads (effectiveN cfg ns) = [] ∧
    get_accurate_readings cfg (some reads) ns disc last = (none, last) := by
  have hn : effectiveN cfg ns = 0 := by
    rw [effectiveN, hv]
    simp only [Option.getD_some]
    omega
  refine ⟨hn, ?_, ?_⟩
  · rw [hn]
    rfl
  · refine gar_none_of_empty cfg reads ns disc last ?_
    rw [validSamples, hn]
    rfl

def cfgC9 : SensorConfig := ⟨⟨-40, 85, 0, 100, 300, 1100⟩, some (-2), 0⟩

/-- Read attempts that would all succeed, never consulted. -/
def readsC9 : Nat → Option (ℚ × ℚ × ℚ) := fun _ => some (20, 50, 1000)

/-- C9 witness: configured num_samples of -2 yields zero attempts and a
none result even though every read attempt would have produced a valid
triple. -/
theorem C9_nonpositive_num_samples_w :
    effectiveN cfgC9 5 = 0 ∧
    rawSamples readsC9 (effectiveN cfgC9 5) = [] ∧
    get_accurate_readings cfgC9 (some readsC9) 5 true none = (none, none) := by
  exact C9_nonpositive_num_samples cfgC9 (-2) readsC9 5 true none rfl (by decide)

/-- C10: on every successful aggregation call the stored smoothing state
holds the unrounded blended per-field values, and the returned result's
temperature, humidity and pressure are exactly those stored values rounded
to 2 decimal places. -/
theorem C10_unrounded_state (cfg : SensorConfig)
    (reads : Nat → Option (ℚ × ℚ × ℚ)) (ns : Int) (disc : Bool)
    (last : Option LastGoodReadings) (r : GARResult) (st2 : Option LastGoodReadings)
    (hres : get_accurate_readings cfg (some reads) ns disc last = (some r, st2)) :
    st2 = some ⟨(smoothStep cfg.smoothing_factor last
          (computedAverages cfg reads ns disc)).1,
        (smoothStep cfg.smoothing_factor last
          (computedAverages cfg reads ns disc)).2.1,
        (smoothStep cfg.smoothing_factor last
          (computedAverages cfg reads ns disc)).2.2⟩ ∧
    r.temperature = round2 (smoothStep cfg.smoothing_factor last
        (computedAverages cfg reads ns disc)).1 ∧
    r.humidity = round2 (smoothStep cfg.smoothing_factor last
        (computedAverages cfg reads ns disc)).2.1 ∧
    r.pressure = round2 (smoothStep cfg.smoothing_factor last
        (computedAverages cfg reads ns disc)).2.2 := by
  by_cases hz : validSamples cfg.ranges reads (effectiveN cfg ns) = []
  · rw [gar_none_of_empty cfg reads ns disc last hz] at hres
    exact absurd (congrArg Prod.fst hres) (by simp)
  · rw [gar_success cfg reads ns disc last hz, Prod.mk.injEq] at hres
    obtain ⟨hr, hst⟩ := hres
    obtain rfl := Option.some_inj.mp hr
    subst hst
    exact ⟨rfl, rfl, rfl, rfl⟩

def cfgC10 : SensorConfig := ⟨⟨-40, 85, 0, 100, 300, 1100⟩, none, 0⟩

/-- Three valid read attempts with temperatures 20, 20, 21. -/
def readsC10 : Nat → Option (ℚ × ℚ × ℚ) := fun i =>
  if i = 0 then some (20, 50, 1000)
  else if i = 1 then some (20, 50, 1000)
  else if i = 2 then some (21, 50, 1000)
  else none

/-- The unrounded stored state of the C10 witness run: average temperature
61/3. -/
def sC10 : LastGoodReadings := ⟨61/3, 50, 1000⟩

def rC10 : GARResult :=
  ⟨2033/100, 50, 1000, [20, 20, 21], [50, 50, 50], [1000, 1000, 1000], 3, 3⟩

lemma garC10_eval :
    get_accurate_readings cfgC10 (some readsC10) 3 true none =
      (some rC10, some sC10) := by
  rw [gar_success cfgC10 readsC10 3 true none (by decide)]
  have hout : outlierStep true (fieldLists cfgC10.ranges readsC10 (effectiveN cfgC10 3)) =
      ([20, 20, 21], [50, 50, 50], [1000, 1000, 1000]) := by decide
  have hca : computedAverages cfgC10 readsC10 3 true = (61/3, 50, 1000) := by
    simp only [computedAverages, hout]
    norm_num [listAvg, List.sum_cons, List.sum_nil]
  have hsm : smoothStep cfgC10.smoothing_factor none
      (computedAverages cfgC10 readsC10 3 true) = (61/3, 50, 1000) := by
    rw [hca, smoothStep.eq_def]
    norm_num [cfgC10]
  have hv : (validSamples cfgC10.ranges readsC10 (effectiveN cfgC10 3)).length = 3 := by
    decide
  have hn : effectiveN cfgC10 3 = 3 := by decide
  simp only [hsm, hout, hv, hn, rC10, sC10]
  norm_num [round2, round_eq]
  decide

/-- C10 witness: the stored state after the run holds the unrounded average
61/3 while the published temperature is its rounding 20.33; in particular
the stored value differs from the published one. -/
theorem C10_unrounded_state_w :
    some sC10 = some (⟨(smoothStep cfgC10.smoothing_factor none
          (computedAverages cfgC10 readsC10 3 true)).1,
        (smoothStep cfgC10.smoothing_factor none
          (computedAverages cfgC10 readsC10 3 true)).2.1,
        (smoothStep cfgC10.smoothing_factor none
          (computedAverages cfgC10 readsC10 3 true)).2.2⟩ : LastGoodReadings) ∧
    rC10.temperature = round2 sC10.temperature ∧
    rC10.temperature ≠ sC10.temperature := by
  have h := C10_unrounded_state cfgC10 readsC10 3 true none rC10 (some sC10) garC10_eval
  refine ⟨h.1, ?_, ?_⟩
  · have e := Option.some_inj.mp h.1
    rw [show sC10.temperature = (smoothStep cfgC10.smoothing_factor none
        (computedAverages cfgC10 readsC10 3 true)).1 from by rw [e]]
    exact h.2.1
  · norm_num [rC10, sC10]

/-- The main-loop state consulted by the error handler (lines 850-903):
whether the sensor handle is live (`bme280 is not None`), the
`consecutive_errors` counter, and the optional `last_successful_readings`
values (their timestamp is modelled by the `age_minutes` argument of
`handleReadError`). -/
structure ErrState where
  sensorOk : Bool
  consecutive_errors : Nat
  last_good : Option LastGoodReadings
deriving DecidableEq, Repr

/-- The jittered recovery payload values (lines 874-889). -/
structure RecoveryData where
  temperature : ℚ
  humidity : ℚ
  pressure : ℚ
deriving DecidableEq, Repr

/-- Model of the error-handler branch of the main loop (lines 850-903):
increment `consecutive_errors`; when it reaches the threshold, drop the
sensor handle and reset the counter to zero; then offer a jittered
substitute only if `last_successful_readings` exists, the (post-reset)
counter is at most 2, and the reading is younger than 5 minutes.  The
jitter values drawn from `random.random() * 0.2 - 0.1` are passed in as
`jt`, `jh`, `jp`. -/
def handleReadError (threshold : Nat) (st : ErrState) (age_minutes jt jh jp : ℚ) :
    ErrState × Option RecoveryData :=
  let ce := st.consecutive_errors + 1
  let sensorOk2 := if threshold ≤ ce then false else st.sensorOk
  let ce2 := if threshold ≤ ce then 0 else ce
  let recovery : Option RecoveryData :=
    match st.last_good with
    | none => none
    | some lg =>
      if ce2 ≤ 2 then
        if age_minutes < 5 then
          some ⟨round2 (lg.temperature + jt), round2 (lg.humidity + jh),
                round2 (lg.pressure + jp)⟩
        else none
      else none
  (⟨sensorOk2, ce2, st.last_good⟩, recovery)

/-- Model of the Publishing section of the main loop (lines 820-848): when
connected, optionally drain the queue first, publish the built messages
queuing the failing ones, and reset `consecutive_errors` to zero only when
no publish failed; when disconnected, queue every built message and leave
the counter alone. -/
def publishingStep (maxSize : Nat) (connected : Bool) (flushEachCycle : Bool)
    (flushConnected : Nat → Bool) (publish : QMsg → Bool)
    (msgs q : List QMsg) (ce : Nat) : List QMsg × Nat :=
  if connected then
    let q1 := if flushEachCycle then
        flush_unsent_messages maxSize flushConnected publish q
      else q
    let res := publishMessages maxSize publish msgs q1 false
    (res.1, if res.2 then ce else 0)
  else
    (msgs.foldl (fun acc m => add_to_queue maxSize acc m) q, ce)

/-- C3 (amended): a jittered substitute is emitted exactly when the stored
last good reading exists, it is younger than 5 minutes, and the error
counter after this cycle's increment — and after the reset to zero
performed when the incremented counter reaches the threshold — is at most
2.  In particular, on the cycle where the counter reaches the threshold it
is reset to zero before the recovery check, so a substitute is offered
again on that very cycle. -/
theorem C3_recovery_condition (threshold : Nat) (st : ErrState)
    (age jt jh jp : ℚ) :
    (handleReadError threshold st age jt jh jp).2 ≠ none ↔
      st.last_good ≠ none ∧ age < 5 ∧
        (if threshold ≤ st.consecutive_errors + 1 then 0
         else st.consecutive_errors + 1) ≤ 2 := by
  simp only [handleReadError]
  cases hlast : st.last_good with
  | none => simp
  | some lg =>
    by_cases h2 : (if threshold ≤ st.consecutive_errors + 1 then 0
        else st.consecutive_errors + 1) ≤ 2
    · by_cases h5 : age < 5
      · simp [h2, h5]
      · simp [h2, h5]
    · simp [h2]

def lgC3 : LastGoodReadings := ⟨20, 40, 1000⟩

/-- C3 counterexample: entering the cycle with 4 consecutive errors and
threshold 5, the new error makes the counter reach the threshold (the run
has grown past 2 errors), the sensor handle is dropped — yet a jittered
substitute IS emitted, because the counter was reset to 0 before the
recovery check.  The claim says no synthetic data is offered once the run
has grown past 2 errors, including runs reaching the threshold. -/
theorem C3_threshold_recovery :
    2 < (4 : Nat) + 1 ∧ 5 ≤ (4 : Nat) + 1 ∧
    (handleReadError 5 ⟨true, 4, some lgC3⟩ 2 0 0 0).1.sensorOk = false ∧
    (handleReadError 5 ⟨true, 4, some lgC3⟩ 2 0 0 0).2.isSome = true := by
  refine ⟨by decide, by decide, rfl, ?_⟩
  rfl

lemma publishMessages_all_success (maxSize : Nat) (publish : QMsg → Bool) :
    ∀ (msgs q : List QMsg) (b : Bool), (∀ m ∈ msgs, publish m = true) →
      publishMessages maxSize publish msgs q b = (q, b) := by
  intro msgs
  induction msgs with
  | nil => intro q b _; rfl
  | cons m rest ih =>
    intro q b hall
    rw [publishMessages, if_pos (hall m (List.mem_cons_self m rest))]
    exact ih q b (fun x hx => hall x (List.mem_cons_of_mem _ hx))

/-- C8: when the incremented consecutive-error counter reaches the
configured threshold, the sensor handle is dropped and the counter is reset
to zero in that same step, and this is the only point where the transition
happens — below the threshold the handle is untouched and the counter just
increments; independently, a publishing step in which every built message
publishes successfully (so nothing needs queuing) resets the counter to
zero. -/
theorem C8_error_threshold_reset :
    (∀ (threshold : Nat) (st : ErrState) (age jt jh jp : ℚ),
      threshold ≤ st.consecutive_errors + 1 →
        (handleReadError threshold st age jt jh jp).1.sensorOk = false ∧
        (handleReadError threshold st age jt jh jp).1.consecutive_errors = 0) ∧
    (∀ (threshold : Nat) (st : ErrState) (age jt jh jp : ℚ),
      st.consecutive_errors + 1 < threshold →
        (handleReadError threshold st age jt jh jp).1.sensorOk = st.sensorOk ∧
        (handleReadError threshold st age jt jh jp).1.consecutive_errors =
          st.consecutive_errors + 1) ∧
    (∀ (maxSize : Nat) (flushEachCycle : Bool) (flushConnected : Nat → Bool)
        (publish : QMsg → Bool) (msgs q : List QMsg) (ce : Nat),
      (∀ m ∈ msgs, publish m = true) →
        (publishingStep maxSize true flushEachCycle flushConnected publish
          msgs q ce).2 = 0) := by
  refine ⟨?_, ?_, ?_⟩
  · intro threshold st age jt jh jp hth
    simp [handleReadError, hth]
  · intro threshold st age jt jh jp hth
    have hth2 : ¬ threshold ≤ st.consecutive_errors + 1 := by omega
    simp [handleReadError, hth2]
  · intro maxSize flushEachCycle flushConnected publish msgs q ce hall
    have hres := publishMessages_all_success maxSize publish msgs
      (if flushEachCycle then flush_unsent_messages maxSize flushConnected publish q
       else q) false hall
    show (if (publishMessages maxSize publish msgs
        (if flushEachCycle then flush_unsent_messages maxSize flushConnected publish q
         else q) false).2 = true then ce else 0) = 0
    rw [hres]
    rfl

def mC8 : QMsg := ⟨"senzory/loc/readings", "cycle-payload", 1, false⟩

/-- C8 witness: with threshold 3, a third consecutive error drops the
sensor and resets the counter to zero; a first error below the threshold
keeps the sensor and increments the counter to 1; and a cycle publishing
its single message successfully resets a counter of 7 to zero. -/
theorem C8_error_threshold_reset_w :
    ((handleReadError 3 ⟨true, 2, none⟩ 0 0 0 0).1.sensorOk = false ∧
     (handleReadError 3 ⟨true, 2, none⟩ 0 0 0 0).1.consecutive_errors = 0) ∧
    ((handleReadError 3 ⟨true, 0, none⟩ 0 0 0 0).1.sensorOk = true ∧
     (handleReadError 3 ⟨true, 0, none⟩ 0 0 0 0).1.consecutive_errors = 1) ∧
    (publishingStep 1000 true true (fun _ => true) (fun _ => true)
      [mC8] [] 7).2 = 0 := by
  refine ⟨C8_error_threshold_reset.1 3 ⟨true, 2, none⟩ 0 0 0 0 (by decide), ?_, ?_⟩
  · exact C8_error_threshold_reset.2.1 3 ⟨true, 0, none⟩ 0 0 0 0 (by decide)
  · exact C8_error_threshold_reset.2.2 1000 true (fun _ => true) (fun _ => true)
      [mC8] [] 7 (fun m _ => rfl)
